import Mathlib

/-!
Verification development for the `nramh-lis` laboratory middleware.

Shallow embedding of the byte-level protocol code:
  * `src/src-tauri/src/protocol/astm/mod.rs` (ASTM frame codec),
  * `src/src-tauri/src/services/autoquant_meril.rs` (ASTM session FSM),
  * `src/src-tauri/src/protocol/hl7_parser.rs` (MLLP framing, HL7 parsing),
  * `src/src-tauri/src/services/bf6900_service.rs` (HL7 session, NAK building),
  * `src/src-tauri/src/services/his_client.rs` (machine-name mapping).

Bytes are modelled as `Nat` (values < 256 on all real inputs); Rust byte
slices become `List Nat`; Rust `&str` values in the HL7/HIS layer become
`List Char`.  Fallible Rust functions returning `Result` become `Except`;
a Rust panic (out-of-bounds slice index) is modelled by `Option.none` at
the outermost layer of the affected function.  Wall-clock data (generated
ids, timestamps) is either dropped from record models or passed in as an
explicit parameter, since it does not affect any property studied here.
-/

-- ===========================================================================
-- Wire constants (src/src-tauri/src/protocol/astm/constants.rs and
-- the duplicated constants in autoquant_meril.rs / hl7_parser.rs)
-- ===========================================================================

def STX : Nat := 0x02
def ETX : Nat := 0x03
def ETB : Nat := 0x17
def EOT : Nat := 0x04
def ENQ : Nat := 0x05
def ACK : Nat := 0x06
def NAK : Nat := 0x15
def CR : Nat := 0x0D
def LF : Nat := 0x0A
def VT : Nat := 0x0B
def FS : Nat := 0x1C

-- ===========================================================================
-- Generic helpers shared by the embeddings
-- ===========================================================================

/-- Rust `iter().position(p)`: index of the first element satisfying `p`. -/
def position (p : Nat → Bool) : List Nat → Option Nat
  | [] => none
  | x :: xs => if p x then some 0 else (position p xs).map (· + 1)

/-- Index of the first element of any list satisfying `p` (for output lists). -/
def posBy {α : Type} (p : α → Bool) : List α → Option Nat
  | [] => none
  | x :: xs => if p x then some 0 else (posBy p xs).map (· + 1)

/-- Rust `str::split(sep)` / byte-level field splitting: always returns at
least one (possibly empty) piece, keeps empty pieces. -/
def splitByte (sep : Nat) : List Nat → List (List Nat)
  | [] => [[]]
  | x :: xs =>
    let r := splitByte sep xs
    if x == sep then [] :: r
    else
      match r with
      | [] => [[x]]
      | h :: t => (x :: h) :: t

/-- `splitByte` for character lists (Rust `str::split(char)`). -/
def splitChar (sep : Char) : List Char → List (List Char)
  | [] => [[]]
  | x :: xs =>
    let r := splitChar sep xs
    if x == sep then [] :: r
    else
      match r with
      | [] => [[x]]
      | h :: t => (x :: h) :: t

/-- Is `pre` a leading segment of `s`? (Rust `str::starts_with`). -/
def startsWithL : List Char → List Char → Bool
  | _, [] => true
  | [], _ :: _ => false
  | x :: xs, y :: ys => x == y && startsWithL xs ys

/-- Rust `str::contains(substring)`. -/
def containsL : List Char → List Char → Bool
  | hay, sub =>
    if startsWithL hay sub then true
    else
      match hay with
      | [] => false
      | _ :: t => containsL t sub

-- ===========================================================================
-- ASTM frame codec (src/src-tauri/src/protocol/astm/mod.rs, `Frame`)
-- ===========================================================================

/-- `ProtocolError` variants reachable from `Frame::parse`. -/
inductive PErr where
  | invalidFrameFormat (msg : String)
  | invalidChecksum (expected actual : String)
deriving DecidableEq, Repr

/-- `Frame` from astm/mod.rs: sequence number, content (without STX,
ETX/ETB and checksum) and the last-frame flag. -/
structure Frame where
  sequence : Nat
  content : List Nat
  is_last_frame : Bool
deriving DecidableEq, Repr

/-- `Frame::calculate_checksum`: the source sums the bytes into a `u16` and
reduces `% 256`; since `256` divides `2^16`, the wrapping `u16` sum followed
by `% 256` equals the plain sum `% 256`. -/
def calculateChecksum (data : List Nat) : Nat :=
  data.sum % 256

/-- One uppercase hex digit, as in Rust's `{:02X}` rendering. -/
def hexDigit (k : Nat) : Nat :=
  if k < 10 then 48 + k else 55 + k

/-- `format!("{:02X}", n)` for `n < 256`: exactly two uppercase hex chars. -/
def hex2 (n : Nat) : List Nat :=
  [hexDigit (n / 16), hexDigit (n % 16)]

/-- The bytes the encoder checksums: frame number through ETX/ETB inclusive
(`&buffer[1..]` at the point `calculate_checksum` is called). -/
def frameBody (f : Frame) : List Nat :=
  ((f.sequence + 48) % 256) :: f.content ++ [if f.is_last_frame then ETX else ETB]

/-- `Frame::encode`: `STX`, ASCII frame number, content, `ETX`/`ETB`, two
hex checksum characters, `CR`, `LF`.  The `% 256` on the frame-number byte
models the wrapping `u8` addition `self.sequence + b'0'`. -/
def Frame.encode (f : Frame) : List Nat :=
  STX :: frameBody f ++ hex2 (calculateChecksum (frameBody f)) ++ [CR, LF]

/-- Numeric value of one hex character as produced by `hexDigit`. -/
def hexCharVal (c : Nat) : Nat :=
  if c < 58 then c - 48 else c - 55

/-- Rust `char::to_digit(16)` on an ASCII byte. -/
def hexVal? (c : Nat) : Option Nat :=
  if 48 ≤ c ∧ c ≤ 57 then some (c - 48)
  else if 97 ≤ c ∧ c ≤ 102 then some (c - 87)
  else if 65 ≤ c ∧ c ≤ 70 then some (c - 55)
  else none

/-- All characters decoded as hex digits, or `none` if any is not one. -/
def parseHexDigits : List Nat → Option (List Nat)
  | [] => some []
  | c :: cs =>
    match hexVal? c, parseHexDigits cs with
    | some v, some vs => some (v :: vs)
    | _, _ => none

/-- Rust `u8::from_str_radix(s, 16)` on a short ASCII string: an optional
leading `+`, then a non-empty run of hex digits. -/
def fromStrRadix16 (cs : List Nat) : Option Nat :=
  let ds := if cs.getD 0 0 == 43 then cs.drop 1 else cs
  if ds.isEmpty then none
  else (parseHexDigits ds).map (fun vs => vs.foldl (fun acc v => acc * 16 + v) 0)

/-- Validity of a two-byte slice as UTF-8 (`std::str::from_utf8` on the
two checksum bytes): two ASCII bytes, or one two-byte sequence. -/
def validUtf8Pair (a b : Nat) : Bool :=
  (a < 128 && b < 128) || (194 ≤ a && a ≤ 223 && 128 ≤ b && b ≤ 191)

/-- Rendering used by the source's error messages (`{:02X}`). -/
def hexStr2 (n : Nat) : String :=
  ⟨[Char.ofNat (hexDigit (n / 16 % 16)), Char.ofNat (hexDigit (n % 16))]⟩

/-- `Frame::parse_checksum`: length check, UTF-8 decode, hex parse.  The
caller always passes the exact two checksum bytes.  A valid two-byte UTF-8
sequence that is not ASCII decodes to a single non-hex char, so the radix
parse fails on it. -/
def parseChecksum (bs : List Nat) : Except PErr Nat :=
  if bs.length < 2 then .error (.invalidFrameFormat "Checksum too short")
  else
    let a := bs.getD 0 0
    let b := bs.getD 1 0
    if ¬ validUtf8Pair a b then .error (.invalidFrameFormat "Invalid checksum encoding")
    else if a < 128 ∧ b < 128 then
      match fromStrRadix16 [a, b] with
      | some v => if v < 256 then .ok v else .error (.invalidFrameFormat "Invalid checksum format")
      | none => .error (.invalidFrameFormat "Invalid checksum format")
    else .error (.invalidFrameFormat "Invalid checksum format")

/-- `Frame::parse`: minimum length, STX, first ETX/ETB anywhere in the
buffer, checked subtraction for the sequence digit, content slice, checksum
comparison (a mismatch is a hard `InvalidChecksum` error here). -/
def Frame.parse (data : List Nat) : Except PErr Frame :=
  if data.length < 7 then .error (.invalidFrameFormat "Frame too short")
  else if data.getD 0 0 ≠ STX then
    .error (.invalidFrameFormat ("Invalid start byte: " ++ hexStr2 (data.getD 0 0)))
  else
    match position (fun b => b == ETX || b == ETB) data with
    | none => .error (.invalidFrameFormat "Missing ETX/ETB")
    | some endPos =>
      let isLast := data.getD endPos 0 == ETX
      if data.getD 1 0 < 48 then .error (.invalidFrameFormat "Invalid sequence number")
      else
        let seq := data.getD 1 0 - 48
        let content := (data.drop 2).take (endPos - 2)
        if data.length < endPos + 3 then .error (.invalidFrameFormat "Missing checksum")
        else
          match parseChecksum ((data.drop (endPos + 1)).take 2) with
          | .error e => .error e
          | .ok expected =>
            let calculated := calculateChecksum ((data.drop 1).take endPos)
            if expected ≠ calculated then
              .error (.invalidChecksum (hexStr2 expected) (hexStr2 calculated))
            else .ok ⟨seq, content, isLast⟩

/-- The checksum value actually present on the wire: the two hex characters
right before the trailing `CR LF` of an encoded frame, decoded. -/
def encodedChecksumValue (f : Frame) : Nat :=
  let e := f.encode
  let tail := e.drop (e.length - 4)
  hexCharVal (tail.getD 0 0) * 16 + hexCharVal (tail.getD 1 0)

instance {ε α : Type} [DecidableEq ε] [DecidableEq α] : DecidableEq (Except ε α) := fun a b =>
  match a, b with
  | .ok x, .ok y => if h : x = y then .isTrue (by rw [h]) else .isFalse (by simp [h])
  | .error e, .error e' => if h : e = e' then .isTrue (by rw [h]) else .isFalse (by simp [h])
  | .ok _, .error _ => .isFalse (by simp)
  | .error _, .ok _ => .isFalse (by simp)

example : Frame.parse (Frame.encode ⟨1, [72, 124], true⟩) = .ok ⟨1, [72, 124], true⟩ := by decide
example : encodedChecksumValue ⟨1, [72], true⟩ = 124 := by decide

-- ===========================================================================
-- AutoQuantMeril ASTM session (src/src-tauri/src/services/autoquant_meril.rs)
-- ===========================================================================

/-- `ConnectionState` of the AutoQuantMeril service. -/
inductive MState where
  | waitingForEnq
  | waitingForFrame
  | processingFrame
  | waitingForChecksum
  | waitingForCR
  | waitingForLF
  | complete
deriving DecidableEq, Repr

/-- `PatientData` (string fields modelled as byte lists; all content in this
protocol is ASCII). -/
structure PatientDataM where
  id : List Nat
  name : List Nat
  birth_date : Option (List Nat)
  sex : Option (List Nat)
  address : Option (List Nat)
  telephone : Option (List Nat)
  physicians : Option (List Nat)
  height : Option (List Nat)
  weight : Option (List Nat)
deriving DecidableEq, Repr

/-- `TestResult` of autoquant_meril.rs, without the wall-clock fields
(`id`, `completed_date_time`, `created_at`, `updated_at`), which are
generated from `Utc::now()` and carry no protocol content. -/
structure TestResultM where
  test_id : List Nat
  sample_id : List Nat
  value : List Nat
  units : Option (List Nat)
  reference_range : Option (List Nat)
  flags : List (List Nat)
  status : List Nat
  analyzer_id : Option String
deriving DecidableEq, Repr

/-- The `MerilEvent` variants produced by the session FSM (timestamps
dropped; `raw_data` kept as the raw frame-data bytes). -/
inductive MEvent where
  | astmMessageReceived (analyzer_id : String) (message_type : String) (raw_data : List Nat)
  | labResultProcessed (analyzer_id : String) (patient_id : Option (List Nat))
      (patient_data : Option PatientDataM) (test_results : List TestResultM)
deriving DecidableEq, Repr

/-- Observable outputs of the session driver, in emission order: socket
writes of the single ACK/NAK bytes, and events sent on the channel. -/
inductive MOut where
  | writeACK
  | writeNAK
  | evt (e : MEvent)
deriving DecidableEq, Repr

/-- `Connection`, restricted to the protocol-relevant fields (the socket and
the remote address are owned by the runtime). -/
structure MConn where
  state : MState
  frame_buffer : List (List Nat)
  current_frame : List Nat
  analyzer_id : String
deriving DecidableEq, Repr

/-- `AutoQuantMerilService::validate_checksum`: sums the bytes up to (and
including) the terminator with wrapping `u8` addition, reduces `% 8`, and
compares with the raw checksum byte.  The wrapping sum is `% 256`, and
`8 ∣ 256`, so the comparison value is the plain sum `% 256 % 8`. -/
def validateChecksum (frame : List Nat) : Bool :=
  if frame.length < 6 then false
  else ((frame.take (frame.length - 3)).sum % 256 % 8) == frame.getD (frame.length - 3) 0

/-- `AutoQuantMerilService::extract_frame_data`: bytes strictly between the
first STX and the first ETX.  The trailing CR/LF check in the source only
logs a warning and does not affect the result. -/
def extractFrameData (frame : List Nat) : Except String (List Nat) :=
  if frame.length < 6 then .error "Frame too short"
  else
    match position (· == STX) frame, position (· == ETX) frame with
    | some stx, some etx =>
      if stx < etx then .ok ((frame.drop (stx + 1)).take (etx - (stx + 1)))
      else .error "Invalid frame structure: missing STX or ETX"
    | _, _ => .error "Invalid frame structure: missing STX or ETX"

/-- Record-type name from the classifying byte (`parse_record_type` match). -/
def recordTypeName (b : Nat) : String :=
  if b == 72 then "Header"
  else if b == 80 then "Patient"
  else if b == 79 then "Order"
  else if b == 82 then "Result"
  else if b == 67 then "Comment"
  else if b == 81 then "Request"
  else if b == 76 then "Terminator"
  else "Unknown"

/-- `AutoQuantMerilService::parse_record_type`: guards only against empty
input, then reads `frame_data[1]`.  `none` models the Rust panic on the
out-of-bounds index access. -/
def parseRecordType (d : List Nat) : Option (Except String String) :=
  if d.isEmpty then some (.error "Empty frame data")
  else
    match d.get? 1 with
    | none => none
    | some b => some (.ok (recordTypeName b))

/-- `AutoQuantMerilService::parse_patient_record`. -/
def parsePatientRecord (d : List Nat) : Except String PatientDataM :=
  let fields := splitByte 124 d
  if fields.length < 2 then .error "Invalid patient record format"
  else
    let f6 := fields.getD 6 []
    let nameParts := splitByte 94 f6
    let name := if 2 ≤ nameParts.length then
        nameParts.getD 1 [] ++ [32] ++ nameParts.getD 0 []
      else f6
    .ok { id := fields.getD 3 [], name,
          birth_date := fields.get? 8, sex := fields.get? 9,
          address := fields.get? 11, telephone := fields.get? 13,
          physicians := fields.get? 14, height := fields.get? 17,
          weight := fields.get? 18 }

/-- `AutoQuantMerilService::parse_result_record` (wall-clock fields dropped;
`analyzer_id` is filled in by the caller). -/
def parseResultRecord (d : List Nat) : Except String TestResultM :=
  let fields := splitByte 124 d
  if fields.length < 4 then .error "Invalid result record format"
  else
    let tparts := splitByte 94 (fields.getD 3 [])
    let testName := tparts.getLast?.getD []
    let referenceRange := match fields.get? 6 with
      | none => none
      | some range =>
        if range ≠ [] then
          let parts := splitByte 94 range
          if 2 ≤ parts.length then some (parts.getD 0 [] ++ [45] ++ parts.getD 1 [])
          else some range
        else none
    let flags := match fields.get? 7 with
      | none => []
      | some fl => if fl ≠ [] then [fl] else []
    .ok { test_id := testName, sample_id := fields.getD 2 [],
          value := fields.getD 4 [], units := fields.get? 5,
          reference_range := referenceRange, flags,
          status := (fields.get? 9).getD [70], analyzer_id := none }

/-- `AutoQuantMerilService::process_frame`: the checksum validation result is
only logged by the source — control flow does not depend on it.  On success
the raw frame is appended to the reassembly buffer and an
`AstmMessageReceived` event is emitted.  `none` models the panic reachable
through `parse_record_type`. -/
def processFrame (c : MConn) : Option (Except String (MConn × List MOut)) :=
  match extractFrameData c.current_frame with
  | .error e => some (.error e)
  | .ok d =>
    match parseRecordType d with
    | none => none
    | some (.error e) => some (.error e)
    | some (.ok rt) =>
      some (.ok ({ c with frame_buffer := c.frame_buffer ++ [c.current_frame] },
                 [.evt (.astmMessageReceived c.analyzer_id rt d)]))

/-- The frame-walking loop of `process_complete_message`: patient records
overwrite `patient_data`, result records accumulate (tagged with the
connection's analyzer id), parse failures of individual records are skipped,
a record-type error propagates (`?`), and the index panic propagates. -/
def collectFrames (analyzerId : String) :
    List (List Nat) → Option PatientDataM → List TestResultM →
    Option (Except String (Option PatientDataM × List TestResultM))
  | [], p, rs => some (.ok (p, rs))
  | f :: fs, p, rs =>
    match extractFrameData f with
    | .error _ => collectFrames analyzerId fs p rs
    | .ok d =>
      match parseRecordType d with
      | none => none
      | some (.error e) => some (.error e)
      | some (.ok rt) =>
        if rt == "Patient" then
          match parsePatientRecord d with
          | .ok pd => collectFrames analyzerId fs (some pd) rs
          | .error _ => collectFrames analyzerId fs p rs
        else if rt == "Result" then
          match parseResultRecord d with
          | .ok r => collectFrames analyzerId fs p (rs ++ [{ r with analyzer_id := some analyzerId }])
          | .error _ => collectFrames analyzerId fs p rs
        else collectFrames analyzerId fs p rs

/-- `AutoQuantMerilService::process_complete_message`: walks the buffered
frames and then publishes a single `LabResultProcessed` event. -/
def processCompleteMessage (c : MConn) : Option (Except String (List MOut)) :=
  match collectFrames c.analyzer_id c.frame_buffer none [] with
  | none => none
  | some (.error e) => some (.error e)
  | some (.ok (p, rs)) =>
    some (.ok [.evt (.labResultProcessed c.analyzer_id (p.map (·.id)) p rs)])

/-- The byte loop of `AutoQuantMerilService::process_astm_data`.  Outputs are
accumulated in emission order.  Result `none` models a panic; otherwise the
`Except` mirrors the function's `Result<(), String>` and the connection and
outputs are returned alongside. -/
def astmGo : MConn → List Nat → List MOut →
    Option (Except String Unit × MConn × List MOut)
  | c, [], outs => some (.ok (), c, outs)
  | c, b :: rest, outs =>
    match c.state with
    | .waitingForEnq =>
      if b == ENQ then
        astmGo { c with state := .waitingForFrame } rest (outs ++ [.writeACK])
      else astmGo c rest outs
    | .waitingForFrame =>
      if b == STX then
        astmGo { c with current_frame := [STX], state := .processingFrame } rest outs
      else if b == EOT then
        match processCompleteMessage c with
        | none => none
        | some (.error e) => some (.error e, c, outs)
        | some (.ok evOuts) =>
          some (.ok (),
                { c with frame_buffer := [], current_frame := [], state := .waitingForEnq },
                outs ++ evOuts ++ [.writeACK])
      else astmGo c rest outs
    | .processingFrame =>
      let c' := { c with current_frame := c.current_frame ++ [b] }
      if b == ETX || b == ETB then
        astmGo { c' with state := .waitingForChecksum } rest outs
      else astmGo c' rest outs
    | .waitingForChecksum =>
      astmGo { c with current_frame := c.current_frame ++ [b], state := .waitingForCR } rest outs
    | .waitingForCR =>
      if b == CR then
        astmGo { c with current_frame := c.current_frame ++ [b], state := .waitingForLF } rest outs
      else some (.error "Invalid frame format: expected CR", c, outs)
    | .waitingForLF =>
      if b == LF then
        let c1 := { c with current_frame := c.current_frame ++ [b] }
        match processFrame c1 with
        | none => none
        | some (.error e) => some (.error e, c1, outs ++ [.writeNAK])
        | some (.ok (c2, evOuts)) =>
          astmGo { c2 with current_frame := [], state := .waitingForFrame } rest
            (outs ++ evOuts ++ [.writeACK])
      else some (.error "Invalid frame format: expected LF", c, outs)
    | .complete => some (.ok (), c, outs)

/-- `AutoQuantMerilService::process_astm_data` on one read buffer. -/
def processAstmData (c : MConn) (data : List Nat) :
    Option (Except String Unit × MConn × List MOut) :=
  astmGo c data []

-- ===========================================================================
-- MLLP framing (src/src-tauri/src/protocol/hl7_parser.rs)
-- ===========================================================================

/-- The scan for the `FS CR` end sequence in `extract_mllp_message`:
`for i in start+1..data.len()-1 { if data[i]==FS && data[i+1]==CR ... }`,
expressed as a pairwise walk over the suffix starting at index `i`. -/
def mllpFindEnd : List Nat → Nat → Option Nat
  | a :: b :: rest, i =>
    if a == FS && b == CR then some i else mllpFindEnd (b :: rest) (i + 1)
  | _, _ => none

/-- `extract_mllp_message`: locate the first VT, then the first `FS CR`
after it, and return the bytes strictly between them. -/
def extractMllpMessage (data : List Nat) : Except String (List Nat) :=
  match position (· == VT) data with
  | none => .error "MLLP start block not found"
  | some startPos =>
    match mllpFindEnd (data.drop (startPos + 1)) (startPos + 1) with
    | none => .error "MLLP end sequence not found"
    | some endPos => .ok ((data.drop (startPos + 1)).take (endPos - (startPos + 1)))

/-- `create_mllp_frame`: `VT`, the message bytes, `FS`, `CR`. -/
def createMllpFrame (msg : List Nat) : List Nat :=
  VT :: msg ++ [FS, CR]

-- ===========================================================================
-- HL7 message parsing (src/src-tauri/src/protocol/hl7_parser.rs)
-- ===========================================================================

/-- `HL7Segment`. -/
structure HL7SegmentM where
  segment_type : List Char
  fields : List (List Char)
  raw_segment : List Char
deriving DecidableEq, Repr

/-- `MSHSegment` (note the source reads field 1 for both `field_separator`
and `encoding_characters`, and fields 2..11 for the rest). -/
structure MSHSegmentM where
  field_separator : List Char
  encoding_characters : List Char
  sending_application : List Char
  sending_facility : List Char
  receiving_application : List Char
  receiving_facility : List Char
  date_time_of_message : List Char
  security : List Char
  message_type : List Char
  message_control_id : List Char
  processing_id : List Char
  version_id : List Char
deriving DecidableEq, Repr

/-- `HL7Message` (the `timestamp` field, set from `Utc::now()`, is dropped). -/
structure HL7MessageM where
  message_type : List Char
  message_control_id : List Char
  processing_id : List Char
  version_id : List Char
  segments : List HL7SegmentM
  raw_message : List Char
deriving DecidableEq, Repr

/-- `parse_hl7_segment`: at least three characters, tag = first three, fields
split on `|`. -/
def parseHl7Segment (line : List Char) : Except (List Char) HL7SegmentM :=
  if line.length < 3 then .error "Segment too short".toList
  else .ok ⟨line.take 3, splitChar '|' line, line⟩

/-- `parse_msh_segment`. -/
def parseMshSegment (seg : HL7SegmentM) : Except (List Char) MSHSegmentM :=
  if seg.segment_type ≠ "MSH".toList then .error "Not an MSH segment".toList
  else if seg.fields.length < 12 then .error "MSH segment has insufficient fields".toList
  else
    .ok { field_separator := (seg.fields.get? 1).getD [],
          encoding_characters := (seg.fields.get? 1).getD [],
          sending_application := (seg.fields.get? 2).getD [],
          sending_facility := (seg.fields.get? 3).getD [],
          receiving_application := (seg.fields.get? 4).getD [],
          receiving_facility := (seg.fields.get? 5).getD [],
          date_time_of_message := (seg.fields.get? 6).getD [],
          security := (seg.fields.get? 7).getD [],
          message_type := (seg.fields.get? 8).getD [],
          message_control_id := (seg.fields.get? 9).getD [],
          processing_id := (seg.fields.get? 10).getD [],
          version_id := (seg.fields.get? 11).getD [] }

/-- `segment_line.trim().is_empty()` (the content here is ASCII, so trimming
ASCII whitespace is exact). -/
def trimIsEmpty (l : List Char) : Bool :=
  l.all (fun c => c == ' ' || c == '\t' || c == '\n' || c == '\r')

/-- The segment loop of `parse_hl7_message`: skip blank lines, parse each
segment (errors propagate), and take the message metadata from each MSH
segment encountered. -/
def parseSegsLoop (lines : List (List Char)) (segs : List HL7SegmentM)
    (mt mcid pid vid : List Char) :
    Except (List Char) (List HL7SegmentM × List Char × List Char × List Char × List Char) :=
  match lines with
  | [] => .ok (segs, mt, mcid, pid, vid)
  | l :: rest =>
    if trimIsEmpty l then parseSegsLoop rest segs mt mcid pid vid
    else
      match parseHl7Segment l with
      | .error e => .error e
      | .ok seg =>
        if seg.segment_type == "MSH".toList then
          match parseMshSegment seg with
          | .error e => .error e
          | .ok msh =>
            parseSegsLoop rest (segs ++ [seg]) msh.message_type msh.message_control_id
              msh.processing_id msh.version_id
        else parseSegsLoop rest (segs ++ [seg]) mt mcid pid vid

/-- `parse_hl7_message`. -/
def parseHl7Message (msg : List Char) : Except (List Char) HL7MessageM :=
  if msg.isEmpty then .error "Empty HL7 message".toList
  else
    match parseSegsLoop (splitChar '\r' msg) [] [] [] [] [] with
    | .error e => .error e
    | .ok (segs, mt, mcid, pid, vid) =>
      .ok { message_type := mt, message_control_id := mcid, processing_id := pid,
            version_id := vid, segments := segs, raw_message := msg }

/-- `is_supported_message_type` (CQ 5 Plus supported types). -/
def isSupportedMessageType (t : List Char) : Bool :=
  t == "ORU^R01".toList || t == "OUL^R21".toList || t == "ORM^O01".toList ||
  t == "ORR^O02".toList || t == "ACK".toList

/-- `get_cq5_parameter_codes`, as an association list (the source builds a
`HashMap` with pairwise-distinct keys, so lookup agrees). -/
def cq5ParameterCodes : List (List Char × List Char) :=
  [("2001".toList, "MODE".toList), ("2002".toList, "MODE_EX".toList),
   ("2003".toList, "Ref".toList), ("2004".toList, "Note".toList),
   ("2005".toList, "Level".toList), ("2006".toList, "V_WBC".toList),
   ("2007".toList, "V_NEU_p".toList), ("2008".toList, "V_LYM_p".toList),
   ("2009".toList, "V_MON_p".toList), ("2010".toList, "V_EOS_p".toList),
   ("2011".toList, "V_BAS_p".toList), ("2012".toList, "V_NEU_c".toList),
   ("2013".toList, "V_LYM_c".toList), ("2014".toList, "V_MON_c".toList),
   ("2015".toList, "V_EOS_c".toList), ("2016".toList, "V_BAS_c".toList),
   ("2017".toList, "V_RBC".toList), ("2018".toList, "V_HGB".toList),
   ("2019".toList, "V_MCV".toList), ("2020".toList, "V_HCT".toList),
   ("2021".toList, "V_MCH".toList), ("2022".toList, "V_MCHC".toList),
   ("2023".toList, "V_RDW_SD".toList), ("2024".toList, "V_RDW_CV".toList),
   ("2025".toList, "V_PLT".toList), ("2026".toList, "V_MPV".toList),
   ("2027".toList, "V_PCT".toList), ("2028".toList, "V_PDW".toList),
   ("2029".toList, "V_P_LCR".toList), ("2030".toList, "V_P_LCC".toList),
   ("2031".toList, "V_CRP".toList), ("2032".toList, "V_HS_CRP".toList),
   ("2101".toList, "RBCHistogram.PNG".toList), ("2102".toList, "PLTHistogram.PNG".toList),
   ("2033".toList, "BASOScattergram.PNG".toList), ("2034".toList, "DIFFScattergram.PNG".toList)]

/-- `parameter_codes.get(code)`. -/
def lookupCq5 (code : List Char) : Option (List Char) :=
  (cq5ParameterCodes.find? (fun p => p.1 == code)).map (·.2)

/-- `extract_parameter_name`: with two or more `^`-components the text
component (`parts[1]`) is returned directly; the code table is consulted
only when the identifier has no `^` at all; `split` never yields an empty
list, so the final `"Unknown"` arm is unreachable. -/
def extractParameterName (obsId : List Char) : List Char :=
  let parts := splitChar '^' obsId
  if 2 ≤ parts.length then parts.getD 1 []
  else if ¬ parts.isEmpty then (lookupCq5 (parts.getD 0 [])).getD (parts.getD 0 [])
  else "Unknown".toList

example : extractParameterName "2006^V_WBC^LOCAL".toList = "V_WBC".toList := by decide
example : extractParameterName "2006".toList = "V_WBC".toList := by decide
example : extractMllpMessage (createMllpFrame [84, 69, 83, 84]) = .ok [84, 69, 83, 84] := by decide

-- ===========================================================================
-- BF6900 HL7 session (src/src-tauri/src/services/bf6900_service.rs)
-- ===========================================================================

/-- `BF6900Service::validate_hl7_message_content`: non-empty, MSH first,
supported type, and OBX presence for non-worklist types.  A missing PID only
logs a warning. -/
def validateHl7MessageContent (m : HL7MessageM) : Except (List Char) Unit :=
  if m.segments.isEmpty then .error "HL7 message has no segments".toList
  else if (m.segments.getD 0 ⟨[], [], []⟩).segment_type ≠ "MSH".toList then
    .error "First segment must be MSH".toList
  else if ¬ isSupportedMessageType m.message_type then
    .error ("Unsupported message type: ".toList ++ m.message_type)
  else
    let hasObx := m.segments.any (fun s => s.segment_type == "OBX".toList)
    let isWorklist := startsWithL m.message_type "ORM".toList ||
                      startsWithL m.message_type "ORR".toList
    if ¬ hasObx ∧ ¬ isWorklist then
      .error "HL7 message missing OBX segments - no test results found".toList
    else .ok ()

/-- Rust `str::lines()`: split on `\n`, drop a final empty piece, strip one
trailing `\r` from each line. -/
def rustLines (s : List Char) : List (List Char) :=
  let parts := splitChar '\n' s
  let parts := if parts.getLast? == some [] then parts.dropLast else parts
  parts.map (fun l => if l.getLast? == some '\r' then l.dropLast else l)

/-- The control-id recovery of `create_hl7_nak_response`: first `lines()`
entry starting with `MSH`, split on `|`, field 9, else `UNKNOWN`. -/
def extractOrigControlId (msg : List Char) : List Char :=
  match (rustLines msg).find? (fun l => startsWithL l "MSH".toList) with
  | some mshLine => ((splitChar '|' mshLine).get? 9).getD "UNKNOWN".toList
  | none => "UNKNOWN".toList

/-- The error classification inside `handle_hl7_processing_error`. -/
def errorTypeOf (e : List Char) : List Char :=
  if containsL e "timeout".toList then "TIMEOUT".toList
  else if containsL e "parse".toList || containsL e "invalid".toList then "PARSE_ERROR".toList
  else if containsL e "segment".toList then "SEGMENT_ERROR".toList
  else "UNKNOWN_ERROR".toList

/-- `handle_hl7_processing_error` increments the connection's retry count
and returns `format!("{}:{} (retry {})", error_type, error, retry_count)`;
`newRetry` is the already-incremented count. -/
def enhancedError (e : List Char) (newRetry : Nat) : List Char :=
  errorTypeOf e ++ ":".toList ++ e ++ " (retry ".toList ++ (toString newRetry).toList ++ ")".toList

/-- `create_hl7_nak_response`, with the wall-clock `timestamp` and
`control_id` passed in as parameters. -/
def createHl7NakResponse (ts cid : List Char) (origMsg err : List Char) : List Char :=
  "MSH|^~\\&|LIS|HOSPITAL|BF-6900|FACILITY|".toList ++ ts ++
  "||ACK^R01^ACK|".toList ++ cid ++ "|P|2.3.1||||||UTF-8\r".toList ++
  "MSA|AE|".toList ++ extractOrigControlId origMsg ++ "|".toList ++ err

/-- `create_hl7_acknowledgment` from hl7_parser.rs, with the wall-clock
timestamp passed in (`control_id` is `"ACK" ++ timestamp` in the source). -/
def createHl7Acknowledgment (ts : List Char) (m : HL7MessageM) (code : List Char)
    (note : Option (List Char)) : List Char :=
  let firstSeg := m.segments.getD 0 ⟨[], [], []⟩
  let msh :=
    "MSH|^~\\&|LIS|HOSPITAL|".toList ++
    ((firstSeg.fields.get? 3).getD "SENDER".toList) ++ "|".toList ++
    ((firstSeg.fields.get? 4).getD "FACILITY".toList) ++ "|".toList ++ ts ++
    "||ACK^".toList ++ ((splitChar '^' m.message_type).getD 0 "R01".toList) ++
    "^ACK|".toList ++ "ACK".toList ++ ts ++ "|P|2.3.1||||||UTF-8".toList
  let msa := "MSA|".toList ++ code ++ "|".toList ++ m.message_control_id ++ "|".toList ++
    (note.getD [])
  msh ++ "\r".toList ++ msa ++ "\r".toList

/-- Observable outputs of the per-message branch of `process_hl7_data`:
an MLLP-wrapped response write, or the `HematologyResultProcessed` event
(payload elided — only its presence matters here). -/
inductive HOut where
  | sendResponse (response : List Char)
  | resultEvent
deriving DecidableEq, Repr

/-- The validated-message branch of `process_hl7_data`: a valid message is
ACKed (`AA`) and processed into a `HematologyResultProcessed` event with the
retry count reset; a validation failure increments the retry count, builds
the enhanced error, and sends a NAK with no result event. -/
def handleParsedHl7 (ts cid : List Char) (rawStr : List Char) (m : HL7MessageM)
    (retry : Nat) : List HOut × Nat :=
  match validateHl7MessageContent m with
  | .ok _ =>
    ([.sendResponse (createHl7Acknowledgment ts m "AA".toList (some "Message accepted".toList)),
      .resultEvent], 0)
  | .error e =>
    let newRetry := retry + 1
    ([.sendResponse (createHl7NakResponse ts cid rawStr (enhancedError e newRetry))], newRetry)

/-- The MSA segment of an HL7 response: the last `\r`-separated segment. -/
def lastSegOf (s : List Char) : List Char :=
  (splitChar '\r' s).getLast?.getD []

-- ===========================================================================
-- HIS delivery client (src/src-tauri/src/services/his_client.rs)
-- ===========================================================================

/-- `HisClient::get_machine_name_for_analyzer`: plain case-sensitive
substring tests on the analyzer id. -/
def getMachineNameForAnalyzer (analyzerId : List Char) : List Char :=
  if containsL analyzerId "bf6900".toList || containsL analyzerId "hematology".toList then
    "Meril CQ 5 Plus".toList
  else if containsL analyzerId "autoquant".toList || containsL analyzerId "meril".toList then
    "Meril-3.6-11052213".toList
  else "Unknown-Analyzer".toList

/-- ASCII lowercasing, to state what "differing only in letter case" means
for analyzer ids. -/
def asciiLowerChar (c : Char) : Char :=
  if 'A' ≤ c ∧ c ≤ 'Z' then Char.ofNat (c.toNat + 32) else c

/-- Two strings differ only in (ASCII) letter case. -/
def sameModuloCase (a b : List Char) : Bool :=
  a.map asciiLowerChar == b.map asciiLowerChar

example : getMachineNameForAnalyzer "bf6900-lab1".toList = "Meril CQ 5 Plus".toList := by decide
example : getMachineNameForAnalyzer "BF6900".toList = "Unknown-Analyzer".toList := by decide

-- ===========================================================================
-- Helper lemmas
-- ===========================================================================

lemma position_append_first (p : Nat → Bool) (xs : List Nat) (t : Nat) (rest : List Nat)
    (hxs : ∀ x ∈ xs, p x = false) (ht : p t = true) :
    position p (xs ++ t :: rest) = some xs.length := by
  induction xs with
  | nil => simp [position, ht]
  | cons x xs ih =>
    have hx : p x = false := hxs x (by simp)
    have : position p (xs ++ t :: rest) = some xs.length :=
      ih (fun y hy => hxs y (by simp [hy]))
    simp [position, hx, this]

lemma getD_append_len {α : Type} (l₁ : List α) (x : α) (l₂ : List α) (d : α) :
    (l₁ ++ x :: l₂).getD l₁.length d = x := by
  induction l₁ with
  | nil => rfl
  | cons y l₁ ih => simpa using ih

lemma hexDigit_lt (k : Nat) (h : k < 16) : hexDigit k < 128 := by
  unfold hexDigit; split <;> omega

lemma hexDigit_ge48 (k : Nat) : 48 ≤ hexDigit k := by
  unfold hexDigit; split <;> omega

lemma hexCharVal_hexDigit (k : Nat) (h : k < 16) : hexCharVal (hexDigit k) = k := by
  unfold hexDigit hexCharVal
  by_cases hk : k < 10 <;> simp [hk] <;> omega

lemma hexVal?_hexDigit (k : Nat) (h : k < 16) : hexVal? (hexDigit k) = some k := by
  unfold hexDigit hexVal?
  by_cases hk : k < 10
  · rw [if_pos hk, if_pos (by omega)]
    congr 1; omega
  · rw [if_neg hk, if_neg (by omega), if_neg (by omega), if_pos (by omega)]
    congr 1; omega

lemma mllpFindEnd_append (t : List Nat) :
    ∀ i, (∀ x ∈ t, x ≠ FS) → mllpFindEnd (t ++ [FS, CR]) i = some (t.length + i) := by
  induction t with
  | nil => intro i _; simp [mllpFindEnd]
  | cons x t ih =>
    intro i h
    have hx : (x == FS) = false := by
      simp only [beq_eq_false_iff_ne]
      exact h x (by simp)
    cases t with
    | nil =>
      show mllpFindEnd [x, FS, CR] i = some (1 + i)
      simp [mllpFindEnd, hx]
      omega
    | cons y t' =>
      have hrec := ih (i + 1) (fun z hz => h z (by simp [hz]))
      simp only [List.cons_append] at hrec ⊢
      simp only [mllpFindEnd, hx, Bool.false_and, Bool.false_eq_true, if_false, hrec]
      simp only [Option.some.injEq]
      simp; omega

lemma splitChar_of_not_mem (sep : Char) (l : List Char) (h : sep ∉ l) :
    splitChar sep l = [l] := by
  induction l with
  | nil => rfl
  | cons x l ih =>
    have hx : (x == sep) = false := by
      simp only [beq_eq_false_iff_ne]
      intro hxe; exact h (by simp [hxe])
    have hrec := ih (fun hm => h (by simp [hm]))
    simp [splitChar, hx, hrec]

lemma splitChar_append_sep (sep : Char) (a rest : List Char) (h : sep ∉ a) :
    splitChar sep (a ++ sep :: rest) = a :: splitChar sep rest := by
  induction a with
  | nil => simp [splitChar]
  | cons x a ih =>
    have hx : (x == sep) = false := by
      simp only [beq_eq_false_iff_ne]
      intro hxe; exact h (by simp [hxe])
    have hrec := ih (fun hm => h (by simp [hm]))
    simp only [List.cons_append, splitChar, List.append_eq, hx, Bool.false_eq_true,
      if_false, hrec]

-- ===========================================================================
-- C4 — checksum convention of `Frame::encode`
-- ===========================================================================

/-- C4 (counterexample): the claim says the encoded checksum equals the byte
sum mod 256 and then mod 8; for the frame `⟨1, "H", last⟩` the wire checksum
is 124 while the claimed value is 4. -/
theorem C4_counterexample_checksum_not_mod8 :
    encodedChecksumValue ⟨1, [72], true⟩ = 124 ∧
    (frameBody ⟨1, [72], true⟩).sum % 256 % 8 = 4 ∧ (124 : Nat) ≠ 4 := by
  refine ⟨by decide, by decide, by decide⟩

lemma parseChecksum_hex2 (n : Nat) (h : n < 256) :
    parseChecksum [hexDigit (n / 16), hexDigit (n % 16)] = .ok n := by
  have h1lt : hexDigit (n / 16) < 128 := hexDigit_lt _ (by omega)
  have h2lt : hexDigit (n % 16) < 128 := hexDigit_lt _ (by omega)
  have h1ge : 48 ≤ hexDigit (n / 16) := hexDigit_ge48 _
  have hfrom : fromStrRadix16 [hexDigit (n / 16), hexDigit (n % 16)] = some n := by
    have hd1 : hexVal? (hexDigit (n / 16)) = some (n / 16) := hexVal?_hexDigit _ (by omega)
    have hd2 : hexVal? (hexDigit (n % 16)) = some (n % 16) := hexVal?_hexDigit _ (by omega)
    have hne : ((hexDigit (n / 16) : Nat) == 43) = false := by
      simp only [beq_eq_false_iff_ne]; omega
    simp [fromStrRadix16, parseHexDigits, hne, hd1, hd2]
    omega
  have hv : validUtf8Pair (hexDigit (n / 16)) (hexDigit (n % 16)) = true := by
    unfold validUtf8Pair
    simp only [Bool.or_eq_true, Bool.and_eq_true, decide_eq_true_eq]
    left; exact ⟨h1lt, h2lt⟩
  unfold parseChecksum
  rw [if_neg (by simp)]
  simp only []
  rw [show (([hexDigit (n / 16), hexDigit (n % 16)] : List Nat).getD 0 0) = hexDigit (n / 16) from rfl,
      show (([hexDigit (n / 16), hexDigit (n % 16)] : List Nat).getD 1 0) = hexDigit (n % 16) from rfl]
  rw [if_neg (by simp [hv]), if_pos ⟨h1lt, h2lt⟩, hfrom]
  show (if n < 256 then (Except.ok n : Except PErr Nat)
        else .error (.invalidFrameFormat "Invalid checksum format")) = .ok n
  rw [if_pos h]

lemma drop_append_cons_len {α : Type} (l₁ : List α) (x : α) (l₂ : List α) :
    (l₁ ++ x :: l₂).drop (l₁.length + 1) = l₂ := by
  rw [show l₁ ++ x :: l₂ = (l₁ ++ [x]) ++ l₂ by simp,
      show l₁.length + 1 = (l₁ ++ [x]).length by simp]
  exact List.drop_left _ _

lemma take_append_cons_len {α : Type} (l₁ : List α) (x : α) (l₂ : List α) :
    (l₁ ++ x :: l₂).take (l₁.length + 1) = l₁ ++ [x] := by
  rw [show l₁ ++ x :: l₂ = (l₁ ++ [x]) ++ l₂ by simp,
      show l₁.length + 1 = (l₁ ++ [x]).length by simp]
  exact List.take_left _ _

/-- C4 (amended): for every frame, the checksum rendered by `Frame::encode`
(the two hex characters before the trailing CR LF, decoded) equals the sum
of the bytes from the frame number through the terminator, mod 256 — with no
further mod-8 reduction. -/
theorem C4_encoded_checksum_is_sum_mod256 (f : Frame) :
    encodedChecksumValue f = (frameBody f).sum % 256 := by
  have hcs : (frameBody f).sum % 256 < 256 := Nat.mod_lt _ (by norm_num)
  set cs := (frameBody f).sum % 256 with hcsdef
  have hsplit : Frame.encode f =
      (STX :: frameBody f) ++ [hexDigit (cs / 16), hexDigit (cs % 16), CR, LF] := by
    simp [Frame.encode, hex2, calculateChecksum, ← hcsdef]
  have hlen : (Frame.encode f).length - 4 = (STX :: frameBody f).length := by
    rw [hsplit]; simp
  show hexCharVal (((Frame.encode f).drop ((Frame.encode f).length - 4)).getD 0 0) * 16 +
      hexCharVal (((Frame.encode f).drop ((Frame.encode f).length - 4)).getD 1 0) = cs
  rw [hlen, hsplit, List.drop_left]
  have h1 : cs / 16 < 16 := by omega
  have h2 : cs % 16 < 16 := by omega
  simp only [List.getD, List.get?, Option.getD]
  rw [hexCharVal_hexDigit _ h1, hexCharVal_hexDigit _ h2]
  omega

-- ===========================================================================
-- C5 — ASTM frame codec round-trip
-- ===========================================================================

/-- C5 (counterexample): the frame with sequence 1 and the single payload
byte `0x03` satisfies the claim's hypotheses (payload length ≤ 240,
sequence in 0..7), yet decoding its encoding fails: the decoder locates the
first `ETX`-valued byte, which here is the payload byte, so the checksum
characters are misaligned and parsing errors out. -/
theorem C5_counterexample_terminator_byte_in_payload :
    (1 : Nat) ≤ 7 ∧ ([0x03] : List Nat).length ≤ 240 ∧
    Frame.parse (Frame.encode ⟨1, [0x03], true⟩) ≠ .ok ⟨1, [0x03], true⟩ := by
  refine ⟨by decide, by decide, by decide⟩

/-- C5 (amended): the round-trip `decode (encode f) = f` holds for every
frame with sequence in 0..7 and payload of at most 240 bytes, provided the
payload additionally contains no `ETX` (0x03) or `ETB` (0x17) byte — the
decoder searches the whole buffer for the first terminator byte, so a
terminator byte inside the payload breaks the round-trip. -/
theorem C5_roundtrip (f : Frame)
    (hseq : f.sequence ≤ 7) (hlen : f.content.length ≤ 240)
    (hterm : ∀ x ∈ f.content, x ≠ ETX ∧ x ≠ ETB) :
    Frame.parse (Frame.encode f) = .ok f := by
  obtain ⟨s, c, last⟩ := f
  simp only at hseq hterm hlen
  have hsb : (s + 48) % 256 = s + 48 := Nat.mod_eq_of_lt (by omega)
  set t := if last then ETX else ETB with ht
  set cs := ((s + 48) :: (c ++ [t])).sum % 256 with hcs
  have hcslt : cs < 256 := Nat.mod_lt _ (by norm_num)
  have hbody : frameBody ⟨s, c, last⟩ = (s + 48) :: (c ++ [t]) := by
    show ((s + 48) % 256) :: c ++ [if last then ETX else ETB] = _
    rw [hsb, ← ht]
    simp
  have hcc : calculateChecksum ((s + 48) :: (c ++ [t])) = cs := by
    rw [calculateChecksum]
  have hdata : Frame.encode ⟨s, c, last⟩
      = 2 :: (s + 48) :: (c ++ t :: [hexDigit (cs / 16), hexDigit (cs % 16), 13, 10]) := by
    show STX :: frameBody ⟨s, c, last⟩
        ++ hex2 (calculateChecksum (frameBody ⟨s, c, last⟩)) ++ [CR, LF] = _
    rw [hbody, hcc]
    simp [hex2, STX, CR, LF]
  rw [hdata]
  have hlen7 : ¬((2 :: (s + 48) :: (c ++ t :: [hexDigit (cs / 16), hexDigit (cs % 16), 13, 10])).length < 7) := by
    simp
  have hpos : position (fun b => b == ETX || b == ETB)
      (2 :: (s + 48) :: (c ++ t :: [hexDigit (cs / 16), hexDigit (cs % 16), 13, 10]))
      = some (c.length + 2) := by
    have hxs : ∀ x ∈ 2 :: (s + 48) :: c, (fun b => b == ETX || b == ETB) x = false := by
      intro x hx
      simp only [List.mem_cons] at hx
      rcases hx with rfl | rfl | hx
      · decide
      · simp only [Bool.or_eq_false_iff, beq_eq_false_iff_ne, ETX, ETB]
        omega
      · have := hterm x hx
        simp only [Bool.or_eq_false_iff, beq_eq_false_iff_ne]
        exact this
    have hpt : (fun b => b == ETX || b == ETB) t = true := by
      rw [ht]; cases last <;> simp [ETX, ETB]
    have := position_append_first _ (2 :: (s + 48) :: c) t
      [hexDigit (cs / 16), hexDigit (cs % 16), 13, 10] hxs hpt
    simpa using this
  unfold Frame.parse
  rw [if_neg hlen7, if_neg (by simp [STX]), hpos]
  simp only []
  have hgd1 : (2 :: (s + 48) :: (c ++ t :: [hexDigit (cs / 16), hexDigit (cs % 16), 13, 10])).getD 1 0
      = s + 48 := rfl
  rw [hgd1, if_neg (by omega)]
  have hnock : ¬((2 :: (s + 48) :: (c ++ t :: [hexDigit (cs / 16), hexDigit (cs % 16), 13, 10])).length
      < c.length + 2 + 3) := by
    simp
  rw [if_neg hnock]
  have hcsslice : ((2 :: (s + 48) :: (c ++ t :: [hexDigit (cs / 16), hexDigit (cs % 16), 13, 10])).drop
      (c.length + 2 + 1)).take 2 = [hexDigit (cs / 16), hexDigit (cs % 16)] := by
    show ((c ++ t :: [hexDigit (cs / 16), hexDigit (cs % 16), 13, 10]).drop (c.length + 1)).take 2 = _
    rw [drop_append_cons_len]
    rfl
  rw [hcsslice, parseChecksum_hex2 cs hcslt]
  simp only []
  have hcalc : calculateChecksum
      (((2 :: (s + 48) :: (c ++ t :: [hexDigit (cs / 16), hexDigit (cs % 16), 13, 10])).drop 1).take
        (c.length + 2)) = cs := by
    show calculateChecksum
      (((s + 48) :: (c ++ t :: [hexDigit (cs / 16), hexDigit (cs % 16), 13, 10])).take (c.length + 2)) = cs
    have htake : ((s + 48) :: (c ++ t :: [hexDigit (cs / 16), hexDigit (cs % 16), 13, 10])).take
        (c.length + 2) = (s + 48) :: (c ++ [t]) := by
      show (s + 48) :: ((c ++ t :: [hexDigit (cs / 16), hexDigit (cs % 16), 13, 10]).take (c.length + 1)) = _
      rw [take_append_cons_len]
    rw [htake, hcc]
  rw [hcalc, if_neg (by simp)]
  have hfin : (2 :: (s + 48) :: (c ++ t :: [hexDigit (cs / 16), hexDigit (cs % 16), 13, 10])).getD
      (c.length + 2) 0 = t := by
    show ((2 :: (s + 48) :: c) ++ t :: [hexDigit (cs / 16), hexDigit (cs % 16), 13, 10]).getD
      (2 :: (s + 48) :: c).length 0 = t
    exact getD_append_len _ _ _ _
  rw [hfin]
  have hcont : ((2 :: (s + 48) :: (c ++ t :: [hexDigit (cs / 16), hexDigit (cs % 16), 13, 10])).drop 2).take
      (c.length + 2 - 2) = c := by
    show (c ++ t :: [hexDigit (cs / 16), hexDigit (cs % 16), 13, 10]).take c.length = c
    exact List.take_left _ _
  rw [hcont]
  have hlast : (t == ETX) = last := by
    rw [ht]; cases last <;> simp [ETX, ETB]
  rw [hlast, show s + 48 - 48 = s by omega]

/-- C5 (witness): the round-trip theorem applied to the frame
`⟨1, "H|", ETX⟩`. -/
theorem C5_roundtrip_witness :
    Frame.parse (Frame.encode ⟨1, [72, 124], true⟩) = .ok ⟨1, [72, 124], true⟩ :=
  C5_roundtrip ⟨1, [72, 124], true⟩ (by decide) (by decide) (by decide)

-- ===========================================================================
-- C6 — MLLP round-trip
-- ===========================================================================

/-- C6: wrapping a text containing neither `VT` nor `FS` in an MLLP frame
and extracting again returns exactly the text. -/
theorem C6_mllp_roundtrip (t : List Nat) (_hVT : VT ∉ t) (hFS : FS ∉ t) :
    extractMllpMessage (createMllpFrame t) = .ok t := by
  have hpos : position (· == VT) (VT :: (t ++ [FS, CR])) = some 0 := by
    simp [position]
  have hend : mllpFindEnd (t ++ [FS, CR]) 1 = some (t.length + 1) :=
    mllpFindEnd_append t 1 (fun x hx hxe => hFS (hxe ▸ hx))
  simp only [createMllpFrame, extractMllpMessage, hpos, List.cons_append,
    List.drop_succ_cons, List.drop_zero, Nat.zero_add, hend, Nat.add_sub_cancel,
    List.take_left]

/-- C6 (witness): the round-trip theorem applied to the text `"TEST"`. -/
theorem C6_mllp_roundtrip_witness :
    extractMllpMessage (createMllpFrame [84, 69, 83, 84]) = .ok [84, 69, 83, 84] :=
  C6_mllp_roundtrip [84, 69, 83, 84] (by decide) (by decide)

-- ===========================================================================
-- C8 — hematology parameter-name resolution
-- ===========================================================================

/-- C8 (counterexample): the claim says an identifier `code^text^system`
with a code in the table resolves through the table (2006 → V_WBC); in the
code, the text component wins whenever a `^` is present: `2006^X^LOCAL`
resolves to `X`, not `V_WBC`. -/
theorem C8_counterexample_text_component_wins :
    lookupCq5 "2006".toList = some "V_WBC".toList ∧
    lookupCq5 "2031".toList = some "V_CRP".toList ∧
    extractParameterName "2006^X^LOCAL".toList = "X".toList ∧
    "X".toList ≠ "V_WBC".toList := by
  refine ⟨by decide, by decide, by decide, by decide⟩

/-- C8 (amended): for an observation identifier of the form
`code^text^system` the parameter name is always the text component,
regardless of the table; the vendor-code table is consulted only for a bare
code with no `^`, falling back to the code itself when absent. -/
theorem C8_parameter_name_resolution (code text sys : List Char)
    (hc : '^' ∉ code) (ht : '^' ∉ text) (hs : '^' ∉ sys) :
    extractParameterName (code ++ '^' :: (text ++ '^' :: sys)) = text ∧
    extractParameterName code = (lookupCq5 code).getD code := by
  constructor
  · have hsplit : splitChar '^' (code ++ '^' :: (text ++ '^' :: sys))
        = code :: text :: [sys] := by
      rw [splitChar_append_sep _ _ _ hc, splitChar_append_sep _ _ _ ht,
          splitChar_of_not_mem _ _ hs]
    unfold extractParameterName
    rw [hsplit]
    simp
  · have hsplit : splitChar '^' code = [code] := splitChar_of_not_mem _ _ hc
    unfold extractParameterName
    rw [hsplit]
    simp

/-- C8 (witness): the amended theorem applied to `code = "2006"`,
`text = "X"`, `system = "LOCAL"`. -/
theorem C8_parameter_name_resolution_witness :
    extractParameterName ("2006".toList ++ '^' :: ("X".toList ++ '^' :: "LOCAL".toList))
      = "X".toList ∧
    extractParameterName "2006".toList = (lookupCq5 "2006".toList).getD "2006".toList :=
  C8_parameter_name_resolution "2006".toList "X".toList "LOCAL".toList
    (by decide) (by decide) (by decide)

-- ===========================================================================
-- C9 — HIS machine-name mapping
-- ===========================================================================

/-- C9 (counterexample): the claim says the mapping is case-insensitive;
`"BF6900"` and `"bf6900"` differ only in letter case yet map to different
machine names, because the substring tests are case-sensitive. -/
theorem C9_counterexample_case_sensitive :
    sameModuloCase "BF6900".toList "bf6900".toList = true ∧
    getMachineNameForAnalyzer "BF6900".toList = "Unknown-Analyzer".toList ∧
    getMachineNameForAnalyzer "bf6900".toList = "Meril CQ 5 Plus".toList ∧
    "Unknown-Analyzer".toList ≠ "Meril CQ 5 Plus".toList := by
  refine ⟨by decide, by decide, by decide, by decide⟩

/-- C9 (amended): the machine-name mapping is total — every analyzer id maps
to one of the three machine names — but it is case-sensitive: the substring
tests match the lowercase patterns literally, so ids differing only in
letter case may map to different names. -/
theorem C9_machine_name_total (analyzerId : List Char) :
    getMachineNameForAnalyzer analyzerId = "Meril CQ 5 Plus".toList ∨
    getMachineNameForAnalyzer analyzerId = "Meril-3.6-11052213".toList ∨
    getMachineNameForAnalyzer analyzerId = "Unknown-Analyzer".toList := by
  unfold getMachineNameForAnalyzer
  split
  · left; rfl
  · split
    · right; left; rfl
    · right; right; rfl

-- ===========================================================================
-- C10 — record-type classifier panics on length-1 frame data
-- ===========================================================================

/-- C10: `parse_record_type` guards only against empty input and then reads
index 1; for every frame data of length exactly 1 the access is out of
bounds and the function panics (modelled as `none`) instead of returning an
error.  `extract_frame_data` can produce such data: the well-formed empty
frame `STX '1' ETX 'X' CR LF` yields the one-byte frame data `['1']`, and
`process_frame` on it panics. -/
theorem C10_parse_record_type_panics_on_singleton :
    (∀ b : Nat, parseRecordType [b] = none) ∧
    extractFrameData [2, 49, 3, 88, 13, 10] = .ok [49] ∧
    processFrame ⟨.waitingForLF, [], [2, 49, 3, 88, 13, 10], "autoquant-meril-001"⟩ = none := by
    refine ⟨fun b => ?_, by decide, by decide⟩
    simp [parseRecordType]

-- ===========================================================================
-- C1 — bad-checksum frames are logged and accepted by the session
-- ===========================================================================

/-- C1: in state `WaitingForLF`, when the `LF` byte completes a frame whose
layout is well-formed (frame data extracts, record type classifies) but
whose checksum does not validate, `process_frame` succeeds anyway: the frame
is appended to the reassembly buffer, the received-record event is emitted,
and the session writes `ACK` (not `NAK`) and returns to `WaitingForFrame`.
The checksum result is only logged by the source; no control path depends
on it. -/
theorem C1_bad_checksum_frame_accepted (c : MConn) (d : List Nat) (rt : String)
    (hstate : c.state = .waitingForLF)
    (_hck : validateChecksum (c.current_frame ++ [LF]) = false)
    (hex : extractFrameData (c.current_frame ++ [LF]) = .ok d)
    (hrt : parseRecordType d = some (.ok rt)) :
    processAstmData c [LF] =
      some (.ok (),
            { c with current_frame := [],
                     frame_buffer := c.frame_buffer ++ [c.current_frame ++ [LF]],
                     state := .waitingForFrame },
            [.evt (.astmMessageReceived c.analyzer_id rt d), .writeACK]) := by
  unfold processAstmData astmGo processFrame
  rw [hstate]
  simp [hex, hrt, astmGo]

/-- The wire bytes of a result-record frame `STX '1' "R|1|1|^^^GLU|95" ETX`
whose checksum byte is the deliberately wrong `'X'` (0x58), followed by CR
LF. -/
def badChecksumFrame : List Nat :=
  [2, 49, 82, 124, 49, 124, 49, 124, 94, 94, 94, 71, 76, 85, 124, 57, 53, 3, 88, 13, 10]

/-- The frame data extracted from `badChecksumFrame`. -/
def badChecksumFrameData : List Nat :=
  [49, 82, 124, 49, 124, 49, 124, 94, 94, 94, 71, 76, 85, 124, 57, 53]

/-- The test result parsed from `badChecksumFrame`'s record. -/
def gluResult : TestResultM :=
  { test_id := [71, 76, 85], sample_id := [49], value := [57, 53],
    units := none, reference_range := none, flags := [], status := [70],
    analyzer_id := some "autoquant-meril-001" }

/-- C1 (witness): the theorem applied to a concrete connection holding the
bad-checksum frame, plus the end-to-end run: the full transmission
`ENQ frame EOT` yields ACKs only (never NAK) and a `LabResultProcessed`
event containing the frame's GLU result. -/
theorem C1_bad_checksum_frame_accepted_witness :
    processAstmData ⟨.waitingForLF, [], badChecksumFrame.dropLast, "autoquant-meril-001"⟩ [LF] =
      some (.ok (),
            ⟨.waitingForFrame, [badChecksumFrame], [], "autoquant-meril-001"⟩,
            [.evt (.astmMessageReceived "autoquant-meril-001" "Result" badChecksumFrameData),
             .writeACK]) ∧
    validateChecksum badChecksumFrame = false ∧
    processAstmData ⟨.waitingForEnq, [], [], "autoquant-meril-001"⟩
        (ENQ :: badChecksumFrame ++ [EOT]) =
      some (.ok (), ⟨.waitingForEnq, [], [], "autoquant-meril-001"⟩,
            [.writeACK,
             .evt (.astmMessageReceived "autoquant-meril-001" "Result" badChecksumFrameData),
             .writeACK,
             .evt (.labResultProcessed "autoquant-meril-001" none none [gluResult]),
             .writeACK]) := by
  refine ⟨?_, by decide, by decide⟩
  have h := C1_bad_checksum_frame_accepted
    ⟨.waitingForLF, [], badChecksumFrame.dropLast, "autoquant-meril-001"⟩
    badChecksumFrameData "Result" rfl (by decide) (by decide) (by decide)
  simpa using h

-- ===========================================================================
-- C2 — ordering of the EOT ACK and the result event
-- ===========================================================================

/-- Does some `writeACK` strictly precede some `LabResultProcessed` event in
the output list?  This is the ordering the claim asserts. -/
def ackPrecedesResultEvt (outs : List MOut) : Bool :=
  match posBy (fun o => o == MOut.writeACK) outs,
        posBy (fun o =>
          match o with
          | MOut.evt (MEvent.labResultProcessed _ _ _ _) => true
          | _ => false) outs with
  | some i, some j => Nat.blt i j
  | _, _ => false

/-- The connection used for the C2 counterexample: it has already buffered
the (bad-checksum) result frame and waits for the next frame or EOT. -/
def c2Conn : MConn := ⟨.waitingForFrame, [badChecksumFrame], [], "autoquant-meril-001"⟩

/-- The outputs the session produces when `c2Conn` consumes the EOT byte. -/
def c2Outs : List MOut :=
  match processAstmData c2Conn [EOT] with
  | some (_, _, outs) => outs
  | none => []

/-- C2 (counterexample): processing EOT produces both the ACK write and the
`LabResultProcessed` publication, but the ACK does **not** precede the
event — the event is published first, refuting the claimed ordering at this
concrete input. -/
theorem C2_counterexample_event_published_first :
    c2Outs = [.evt (.labResultProcessed "autoquant-meril-001" none none [gluResult]),
              .writeACK] ∧
    ackPrecedesResultEvt c2Outs = false := by
  refine ⟨by decide, by decide⟩

/-- C2 (amended): upon consuming the EOT byte in `WaitingForFrame`, the
session first publishes the `LabResultProcessed` event (inside
`process_complete_message`) and only then writes the ACK for EOT: the
output sequence is exactly `[event, ACK]`. -/
theorem C2_event_published_before_eot_ack (c : MConn) (p : Option PatientDataM)
    (rs : List TestResultM)
    (hstate : c.state = .waitingForFrame)
    (hcollect : collectFrames c.analyzer_id c.frame_buffer none [] = some (.ok (p, rs))) :
    processAstmData c [EOT] =
      some (.ok (), { c with frame_buffer := [], current_frame := [], state := .waitingForEnq },
            [.evt (.labResultProcessed c.analyzer_id (p.map (·.id)) p rs), .writeACK]) := by
  unfold processAstmData astmGo processCompleteMessage
  rw [hstate]
  simp [hcollect, STX, EOT]

/-- C2 (witness): the amended theorem applied to `c2Conn`. -/
theorem C2_event_published_before_eot_ack_witness :
    processAstmData c2Conn [EOT] =
      some (.ok (),
            { c2Conn with frame_buffer := [], current_frame := [],
                          state := .waitingForEnq },
            [.evt (.labResultProcessed "autoquant-meril-001" none none [gluResult]),
             .writeACK]) :=
  C2_event_published_before_eot_ack c2Conn none [gluResult] rfl (by decide)

-- ===========================================================================
-- C3 — behaviour of `WaitingForCR` on a byte other than CR
-- ===========================================================================

/-- C3 (amended): in state `WaitingForCR`, any byte other than `CR` makes
`process_astm_data` return the error `"Invalid frame format: expected CR"`
with the connection unchanged and **no output at all**: no NAK is written,
the state does not return to `WaitingForFrame`, and the connection has no
retry counter to increment (the caller merely logs the error and emits an
`Error` event). -/
theorem C3_non_cr_returns_error (c : MConn) (b : Nat)
    (hstate : c.state = .waitingForCR) (hb : b ≠ CR) :
    processAstmData c [b] = some (.error "Invalid frame format: expected CR", c, []) := by
  have hbeq : (b == CR) = false := beq_eq_false_iff_ne.mpr hb
  unfold processAstmData astmGo
  rw [hstate]
  simp [hbeq]

/-- The connection used for the C3 counterexample: mid-frame, waiting for
the CR of the trailer. -/
def c3Conn : MConn := ⟨.waitingForCR, [], [2, 49, 82, 3, 88], "autoquant-meril-001"⟩

/-- C3 (counterexample): on the byte `'A'` (≠ CR) in `WaitingForCR`, the
session emits no NAK (the output list is empty) and stays in
`WaitingForCR`, refuting the claimed NAK emission and return to
`WaitingForFrame` (S1); there is no retry counter in this code at all. -/
theorem C3_counterexample_no_nak_no_s1 :
    processAstmData c3Conn [65] =
      some (.error "Invalid frame format: expected CR", c3Conn, []) ∧
    c3Conn.state = .waitingForCR ∧
    MState.waitingForCR ≠ MState.waitingForFrame := by
  refine ⟨by decide, by decide, by decide⟩

/-- C3 (witness): the amended theorem applied to `c3Conn` and the byte
`'A'`. -/
theorem C3_non_cr_returns_error_witness :
    processAstmData c3Conn [65] =
      some (.error "Invalid frame format: expected CR", c3Conn, []) :=
  C3_non_cr_returns_error c3Conn 65 rfl (by decide)

-- ===========================================================================
-- C7 — NAK for an unsupported HL7 message type
-- ===========================================================================

/-- The unsupported message of the claim: `ADT^A08` with control id 999
(concrete timestamps fill the free-text fields). -/
def adtRawMsg : List Char :=
  "MSH|^~\\&|X|Y|Z|W|20240101120000||ADT^A08|999|P|2.4\rEVN|A08|20240101120000".toList

/-- Wall-clock NAK-header timestamp (passed as a parameter in the model). -/
def c7ts : List Char := "20240101120000".toList

/-- Wall-clock NAK control id (passed as a parameter in the model). -/
def c7cid : List Char := "NAK1700000001".toList

/-- The parsed `ADT^A08` message. -/
def c7Message : HL7MessageM :=
  (parseHl7Message adtRawMsg).toOption.getD ⟨[], [], [], [], [], []⟩

/-- The outputs and new retry count when the session handles the parsed
message (fresh connection, retry count 0). -/
def c7Run : List HOut × Nat :=
  handleParsedHl7 c7ts c7cid adtRawMsg c7Message 0

/-- The MSA segment of the NAK the session sends. -/
def c7NakMsa : List Char :=
  match c7Run.1 with
  | [HOut.sendResponse n] => lastSegOf n
  | _ => []

set_option maxRecDepth 40000

/-- C7 (counterexample): the claim says the NAK's MSA segment is exactly
`MSA|AE|999|Unsupported message type: ADT^A08`; the session actually sends
the enhanced error text, prefixed with the error class and suffixed with
the retry count. -/
theorem C7_counterexample_msa_text :
    c7NakMsa ≠ "MSA|AE|999|Unsupported message type: ADT^A08".toList ∧
    c7NakMsa = "MSA|AE|999|UNKNOWN_ERROR:Unsupported message type: ADT^A08 (retry 1)".toList := by
  refine ⟨by decide, by decide⟩

/-- C7 (amended): for the `ADT^A08` message with control id 999 on a fresh
connection, the session sends exactly one NAK whose MSA segment is
`MSA|AE|999|UNKNOWN_ERROR:Unsupported message type: ADT^A08 (retry 1)` —
code AE, the original control id, and the validation text wrapped by
`handle_hl7_processing_error` — the retry count becomes 1, and no
result event is published. -/
theorem C7_unsupported_type_nak :
    parseHl7Message adtRawMsg = .ok c7Message ∧
    c7Message.message_type = "ADT^A08".toList ∧
    c7Message.message_control_id = "999".toList ∧
    c7Run.1 = [.sendResponse (createHl7NakResponse c7ts c7cid adtRawMsg
      "UNKNOWN_ERROR:Unsupported message type: ADT^A08 (retry 1)".toList)] ∧
    c7Run.2 = 1 ∧
    c7NakMsa = "MSA|AE|999|UNKNOWN_ERROR:Unsupported message type: ADT^A08 (retry 1)".toList ∧
    HOut.resultEvent ∉ c7Run.1 := by
  refine ⟨by decide, by decide, by decide, by decide, by decide, by decide, by decide⟩
